import Mathlib

/-!
Verification of the message-framing and transport-adapter core of the
esp-serial repository.  Strings from the source are modelled as `List Char`,
byte buffers as `List Nat` (each element < 256), and the stateful Vue
composables as explicit state-passing functions.
-/

/-- Embedding of the JavaScript expression `s.split('\n')` followed by
`pop()`: the result is the pair (all fragments except the last, last
fragment).  `split` on the single character `'\n'` cuts the string at every
newline; the faithfulness of this embedding is witnessed by
`joinNl_splitNl` (re-joining the fragments with `'\n'` restores the input)
and `splitNl_fst_noNl` / `splitNl_snd_noNl` (no fragment contains the
delimiter). -/
def splitNl : List Char → List (List Char) × List Char
  | [] => ([], [])
  | c :: rest =>
    if c = '\n' then ([] :: (splitNl rest).1, (splitNl rest).2)
    else
      match splitNl rest with
      | ([], t) => ([], c :: t)
      | (h :: hs, t) => ((c :: h) :: hs, t)

/-- Re-join the fragment decomposition produced by `splitNl`: every
completed fragment gets its `'\n'` back and the trailing fragment is
appended verbatim. -/
def joinNl (p : List (List Char) × List Char) : List Char :=
  (p.1.map (fun l => l ++ ['\n'])).flatten ++ p.2

/-- Embedding of `LineBreakTransformer.transform` from
src/utils/serialTransforms.ts: `buffer += chunk; const lines =
buffer.split('\n'); buffer = lines.pop() || '';` then every element of
`lines` is enqueued in order.  Returns (enqueued lines, new buffer). -/
def LineBreakTransformer.transform (buffer chunk : List Char) :
    List (List Char) × List Char :=
  splitNl (buffer ++ chunk)

/-- Embedding of `LineBreakTransformer.flush` from
src/utils/serialTransforms.ts: the lines it enqueues (`if (buffer) {
controller.enqueue(buffer) }`). -/
def LineBreakTransformer.flushEmit (buffer : List Char) : List (List Char) :=
  if buffer = [] then [] else [buffer]

/-- The full effect of `LineBreakTransformer.flush` on the transformer:
(enqueued lines, buffer afterwards).  The source's `flush` does not assign
to `buffer`, so the second component is the unchanged buffer. -/
def LineBreakTransformer.flushState (buffer : List Char) :
    List (List Char) × List Char :=
  (LineBreakTransformer.flushEmit buffer, buffer)

/-- Feed a sequence of chunks through one `LineBreakTransformer` instance,
collecting all enqueued lines and the final buffer. -/
def LineBreakTransformer.feedAll :
    List Char → List (List Char) → List (List Char) × List Char
  | buffer, [] => ([], buffer)
  | buffer, c :: cs =>
    let p := LineBreakTransformer.transform buffer c
    let q := LineBreakTransformer.feedAll p.2 cs
    (p.1 ++ q.1, q.2)

/-- The line sequence produced by piping a chunk sequence through a fresh
`LineBreakTransformer` and closing the stream (which calls `flush`). -/
def LineBreakTransformer.pipeline (chunks : List (List Char)) :
    List (List Char) :=
  (LineBreakTransformer.feedAll [] chunks).1 ++
    LineBreakTransformer.flushEmit (LineBreakTransformer.feedAll [] chunks).2

/-- How the fragment decompositions of two strings combine into the
decomposition of their concatenation: the last fragment of the first
string merges with the first fragment of the second. -/
def splitCat (p q : List (List Char) × List Char) :
    List (List Char) × List Char :=
  match q.1 with
  | [] => (p.1, p.2 ++ q.2)
  | h :: t => (p.1 ++ (p.2 ++ h) :: t, q.2)

theorem splitNl_append (a b : List Char) :
    splitNl (a ++ b) = splitCat (splitNl a) (splitNl b) := by
  induction a with
  | nil =>
    rcases hb : splitNl b with ⟨lb, tb⟩
    cases lb <;> simp [splitNl, splitCat, hb]
  | cons c a ih =>
    rcases ha : splitNl a with ⟨la, ta⟩
    rcases hb : splitNl b with ⟨lb, tb⟩
    by_cases hc : c = '\n' <;> cases la <;> cases lb <;>
      simp [splitNl, splitCat, ha, hb, hc, ih]

theorem joinNl_splitNl (l : List Char) : joinNl (splitNl l) = l := by
  induction l with
  | nil => rfl
  | cons c rest ih =>
    rcases hs : splitNl rest with ⟨ls, t⟩
    rw [hs] at ih
    by_cases hc : c = '\n' <;> cases ls <;>
      simp_all [splitNl, joinNl, hs, hc]

theorem splitNl_fst_noNl (l : List Char) :
    ∀ x ∈ (splitNl l).1, '\n' ∉ x := by
  induction l with
  | nil => simp [splitNl]
  | cons c rest ih =>
    rcases hs : splitNl rest with ⟨ls, t⟩
    rw [hs] at ih
    by_cases hc : c = '\n' <;> cases ls <;>
      simp_all [splitNl, hs, hc, ne_comm]

theorem splitNl_snd_noNl (l : List Char) : '\n' ∉ (splitNl l).2 := by
  induction l with
  | nil => simp [splitNl]
  | cons c rest ih =>
    rcases hs : splitNl rest with ⟨ls, t⟩
    rw [hs] at ih
    by_cases hc : c = '\n' <;> cases ls <;>
      simp_all [splitNl, hs, hc, ne_comm]

theorem splitNl_of_noNl (l : List Char) (h : '\n' ∉ l) :
    splitNl l = ([], l) := by
  induction l with
  | nil => rfl
  | cons c rest ih =>
    simp only [List.mem_cons, not_or] at h
    rw [splitNl, if_neg (show ¬ c = '\n' from fun he => h.1 he.symm), ih h.2]

theorem transform_snd_noNl (b c : List Char) :
    '\n' ∉ (LineBreakTransformer.transform b c).2 :=
  splitNl_snd_noNl (b ++ c)

theorem feedAll_eq_transform_flatten (chunks : List (List Char)) :
    ∀ buffer : List Char, '\n' ∉ buffer →
      LineBreakTransformer.feedAll buffer chunks =
        LineBreakTransformer.transform buffer chunks.flatten := by
  induction chunks with
  | nil =>
    intro buffer hb
    simp [LineBreakTransformer.feedAll, LineBreakTransformer.transform,
      splitNl_of_noNl buffer hb]
  | cons c cs ih =>
    intro buffer hb
    have hb1 : '\n' ∉ (LineBreakTransformer.transform buffer c).2 :=
      transform_snd_noNl buffer c
    rw [LineBreakTransformer.feedAll, ih _ hb1]
    show _ = LineBreakTransformer.transform buffer (c ++ cs.flatten)
    unfold LineBreakTransformer.transform
    rw [← List.append_assoc, splitNl_append (buffer ++ c) cs.flatten,
      splitNl_append _ cs.flatten,
      splitNl_of_noNl _ (splitNl_snd_noNl (buffer ++ c))]
    rcases hq : splitNl cs.flatten with ⟨lq, tq⟩
    cases lq <;> simp [splitCat]

/-- Claim C1: for every input text and every way of splitting it into a
sequence of chunks, feeding the chunks in order through the
LineBreakTransformer and then flushing yields exactly the same ordered
sequence of lines as feeding the whole text as one chunk and then
flushing. -/
theorem C1_pipeline_split_invariance (chunks : List (List Char)) :
    LineBreakTransformer.pipeline chunks =
      LineBreakTransformer.pipeline [chunks.flatten] := by
  unfold LineBreakTransformer.pipeline
  rw [feedAll_eq_transform_flatten chunks [] (by simp),
    feedAll_eq_transform_flatten [chunks.flatten] [] (by simp)]
  simp

/-- The end-to-end test vector from the spec: the chunk "READY\r\n". -/
def readyChunk : List Char := ['R', 'E', 'A', 'D', 'Y', '\r', '\n']

/-- The line the spec expects from the chunk "READY\r\n": "READY\r". -/
def readyLine : List Char := ['R', 'E', 'A', 'D', 'Y', '\r']

/-- Claim C2: for every pending buffer and chunk, `transform` splits
buffer ++ chunk on the newline character only (re-joining the emitted
lines with newlines followed by the new buffer restores buffer ++ chunk),
every emitted line is free of the delimiter, the new buffer contains no
delimiter, and other characters such as carriage return are preserved:
feeding "READY\r\n" into a fresh transformer emits exactly the line
"READY\r" and leaves an empty buffer. -/
theorem C2_transform_spec (b c : List Char) :
    joinNl (LineBreakTransformer.transform b c) = b ++ c ∧
    (∀ x ∈ (LineBreakTransformer.transform b c).1, '\n' ∉ x) ∧
    '\n' ∉ (LineBreakTransformer.transform b c).2 ∧
    LineBreakTransformer.transform [] readyChunk = ([readyLine], []) := by
  refine ⟨joinNl_splitNl (b ++ c), splitNl_fst_noNl (b ++ c),
    splitNl_snd_noNl (b ++ c), by decide⟩

theorem C2_transform_spec_witness :
    joinNl (LineBreakTransformer.transform [] readyChunk) = readyChunk ∧
    '\n' ∉ readyLine := by
  have h := C2_transform_spec [] readyChunk
  refine ⟨by simpa using h.1, h.2.1 readyLine ?_⟩
  rw [h.2.2.2]
  exact List.mem_singleton.mpr rfl

/-- A concrete non-empty pending buffer, "PART". -/
def partBuffer : List Char := ['P', 'A', 'R', 'T']

/-- Claim C9, counterexample: with pending buffer "PART", `flush` emits
the line but does NOT clear the buffer, so a second flush emits the very
same line again — refuting "then clears the buffer (a second flush emits
nothing)". -/
theorem C9_flush_counterexample :
    (LineBreakTransformer.flushState partBuffer).2 = partBuffer ∧
    (LineBreakTransformer.flushState
      ((LineBreakTransformer.flushState partBuffer).2)).1 = [partBuffer] := by
  constructor <;> rfl

/-- Claim C9 (amended): `flush` emits the pending buffer as one final line
if and only if the buffer is non-empty, and leaves the buffer unchanged
(it does not clear it, so a second flush on a non-empty buffer emits the
same line again; within a stream's lifecycle flush runs only once). -/
theorem C9_flush_amended (b : List Char) :
    ((LineBreakTransformer.flushState b).1 = [] ↔ b = []) ∧
    (b ≠ [] → (LineBreakTransformer.flushState b).1 = [b]) ∧
    (LineBreakTransformer.flushState b).2 = b := by
  unfold LineBreakTransformer.flushState LineBreakTransformer.flushEmit
  by_cases hb : b = [] <;> simp [hb]

theorem C9_flush_amended_witness :
    (LineBreakTransformer.flushState partBuffer).1 = [partBuffer] :=
  (C9_flush_amended partBuffer).2.1 (by decide)

/-- Internal state of the WHATWG streaming UTF-8 decoder that backs the
platform TextDecoder used by the source (serialTransforms.ts and
bleTransforms.ts): the code point being assembled, how many continuation
bytes are still needed, how many have been seen, and the admissible range
for the next continuation byte. -/
structure DecState where
  cp : Nat
  needed : Nat
  seen : Nat
  lo : Nat
  hi : Nat
deriving DecidableEq, Repr

/-- Fresh decoder state. -/
def initDec : DecState := ⟨0, 0, 0, 0x80, 0xBF⟩

/-- WHATWG UTF-8 decoder, handling one byte in the start state:
ASCII passes through, lead bytes set up the continuation window
(with the overlong/surrogate/out-of-range adjustments for 0xE0, 0xED,
0xF0 and 0xF4), anything else emits the replacement character U+FFFD. -/
def startByte (b : Nat) : DecState × List Nat :=
  if b ≤ 0x7F then (initDec, [b])
  else if 0xC2 ≤ b ∧ b ≤ 0xDF then (⟨b % 32, 1, 0, 0x80, 0xBF⟩, [])
  else if 0xE0 ≤ b ∧ b ≤ 0xEF then
    (⟨b % 16, 2, 0, if b = 0xE0 then 0xA0 else 0x80,
      if b = 0xED then 0x9F else 0xBF⟩, [])
  else if 0xF0 ≤ b ∧ b ≤ 0xF4 then
    (⟨b % 8, 3, 0, if b = 0xF0 then 0x90 else 0x80,
      if b = 0xF4 then 0x8F else 0xBF⟩, [])
  else (initDec, [0xFFFD])

/-- WHATWG UTF-8 decoder, handling one byte in an arbitrary state: a
continuation byte inside the admissible window accumulates six more bits
and emits the code point once complete; an out-of-window byte emits
U+FFFD and is reprocessed from the start state. -/
def stepByte : DecState → Nat → DecState × List Nat
  | ⟨cp, needed, seen, lo, hi⟩, b =>
    if needed = 0 then startByte b
    else if lo ≤ b ∧ b ≤ hi then
      if seen + 1 = needed then (initDec, [cp * 64 + b % 64])
      else (⟨cp * 64 + b % 64, needed, seen + 1, 0x80, 0xBF⟩, [])
    else ((startByte b).1, 0xFFFD :: (startByte b).2)

/-- Run the streaming decoder over a byte list, returning the final state
and the emitted code points. -/
def decodeBytes : DecState → List Nat → DecState × List Nat
  | st, [] => (st, [])
  | st, b :: bs =>
    ((decodeBytes (stepByte st b).1 bs).1,
      (stepByte st b).2 ++ (decodeBytes (stepByte st b).1 bs).2)

/-- End-of-stream handling of the WHATWG decoder: a dangling incomplete
sequence becomes one replacement character. -/
def decFlush (st : DecState) : List Nat := if st.needed = 0 then [] else [0xFFFD]

/-- Embedding of the `transform` of the repo's TextDecoderStream
(src/utils/serialTransforms.ts): `decoder.decode(chunk, { stream: true })`
decodes with the persistent decoder state and retains any incomplete
trailing byte sequence in that state. -/
def TextDecoderStream.transform (st : DecState) (chunk : List Nat) :
    DecState × List Nat :=
  decodeBytes st chunk

/-- Embedding of the decoding done per chunk by `startReading` in App.vue:
`textDecoder.decode(value)` without `stream: true` decodes the chunk from
a fresh state and runs end-of-stream handling, so an incomplete trailing
sequence becomes a replacement character instead of being retained. -/
def startReadingDecode (chunk : List Nat) : List Nat :=
  (decodeBytes initDec chunk).2 ++ decFlush (decodeBytes initDec chunk).1

/-- Model of the WHATWG TextEncoder UTF-8 encoding of one Unicode scalar
value (written with division and remainder in place of shifts and
masks). -/
def utf8EncodeChar (n : Nat) : List Nat :=
  if n < 0x80 then [n]
  else if n < 0x800 then [0xC0 + n / 64, 0x80 + n % 64]
  else if n < 0x10000 then
    [0xE0 + n / 4096, 0x80 + n / 64 % 64, 0x80 + n % 64]
  else
    [0xF0 + n / 262144, 0x80 + n / 4096 % 64, 0x80 + n / 64 % 64,
      0x80 + n % 64]

/-- Model of `new TextEncoder().encode(s)`: UTF-8 encoding of a string. -/
def utf8Encode (s : List Char) : List Nat :=
  (s.map fun c => utf8EncodeChar c.toNat).flatten

theorem decodeBytes_append (a b : List Nat) : ∀ st : DecState,
    decodeBytes st (a ++ b) =
      ((decodeBytes (decodeBytes st a).1 b).1,
        (decodeBytes st a).2 ++ (decodeBytes (decodeBytes st a).1 b).2) := by
  induction a with
  | nil => intro st; simp [decodeBytes]
  | cons x xs ih => intro st; simp [decodeBytes, ih]

theorem decodeBytes_nil (st : DecState) : decodeBytes st [] = (st, []) :=
  rfl

theorem decodeBytes_cons (st : DecState) (b : Nat) (bs : List Nat) :
    decodeBytes st (b :: bs) =
      ((decodeBytes (stepByte st b).1 bs).1,
        (stepByte st b).2 ++ (decodeBytes (stepByte st b).1 bs).2) :=
  rfl

theorem stepByte_init (b : Nat) : stepByte initDec b = startByte b := by
  simp [stepByte, initDec]

theorem step_cont (cp ned seen lo hi b : Nat) (h : ¬ ned = 0)
    (hw : lo ≤ b ∧ b ≤ hi) (hs : ¬ seen + 1 = ned) :
    stepByte ⟨cp, ned, seen, lo, hi⟩ b =
      (⟨cp * 64 + b % 64, ned, seen + 1, 0x80, 0xBF⟩, []) := by
  simp [stepByte, h, hw.1, hw.2, hs]

theorem step_fin (cp ned seen lo hi b : Nat) (h : ¬ ned = 0)
    (hw : lo ≤ b ∧ b ≤ hi) (hs : seen + 1 = ned) :
    stepByte ⟨cp, ned, seen, lo, hi⟩ b = (initDec, [cp * 64 + b % 64]) := by
  simp [stepByte, h, hw.1, hw.2, hs]

theorem decode_encodeChar (c : Char) :
    decodeBytes initDec (utf8EncodeChar c.toNat) = (initDec, [c.toNat]) := by
  have hv : c.toNat < 0xD800 ∨ (0xDFFF < c.toNat ∧ c.toNat < 0x110000) :=
    c.valid
  generalize c.toNat = n at hv
  by_cases h1 : n < 0x80
  · rw [utf8EncodeChar, if_pos h1]
    have e1 : stepByte initDec n = (initDec, [n]) := by
      rw [stepByte_init]
      unfold startByte
      rw [if_pos (by omega : n ≤ 0x7F)]
    simp only [decodeBytes_cons, decodeBytes_nil, e1, List.append_nil,
      List.nil_append]
  by_cases h2 : n < 0x800
  · rw [utf8EncodeChar, if_neg h1, if_pos h2]
    have e1 : stepByte initDec (0xC0 + n / 64) =
        (⟨(0xC0 + n / 64) % 32, 1, 0, 0x80, 0xBF⟩, []) := by
      rw [stepByte_init]
      unfold startByte
      rw [if_neg (by omega : ¬ 0xC0 + n / 64 ≤ 0x7F),
        if_pos (by omega : 0xC2 ≤ 0xC0 + n / 64 ∧ 0xC0 + n / 64 ≤ 0xDF)]
    have e2 := step_fin ((0xC0 + n / 64) % 32) 1 0 0x80 0xBF
      (0x80 + n % 64) (by omega) ⟨by omega, by omega⟩ (by omega)
    rw [show (0xC0 + n / 64) % 32 * 64 + (0x80 + n % 64) % 64 = n
      from by omega] at e2
    simp only [decodeBytes_cons, decodeBytes_nil, e1, e2, List.append_nil,
      List.nil_append]
  by_cases h3 : n < 0x10000
  · rw [utf8EncodeChar, if_neg h1, if_neg h2, if_pos h3]
    have e1 : stepByte initDec (0xE0 + n / 4096) =
        (⟨(0xE0 + n / 4096) % 16, 2, 0,
          if 0xE0 + n / 4096 = 0xE0 then 0xA0 else 0x80,
          if 0xE0 + n / 4096 = 0xED then 0x9F else 0xBF⟩, []) := by
      rw [stepByte_init]
      unfold startByte
      rw [if_neg (by omega : ¬ 0xE0 + n / 4096 ≤ 0x7F),
        if_neg (by omega :
          ¬ (0xC2 ≤ 0xE0 + n / 4096 ∧ 0xE0 + n / 4096 ≤ 0xDF)),
        if_pos (by omega :
          0xE0 ≤ 0xE0 + n / 4096 ∧ 0xE0 + n / 4096 ≤ 0xEF)]
    have e2 := step_cont ((0xE0 + n / 4096) % 16) 2 0
      (if 0xE0 + n / 4096 = 0xE0 then 0xA0 else 0x80)
      (if 0xE0 + n / 4096 = 0xED then 0x9F else 0xBF)
      (0x80 + n / 64 % 64) (by omega)
      ⟨by split <;> omega, by split <;> omega⟩ (by omega)
    have e3 := step_fin
      ((0xE0 + n / 4096) % 16 * 64 + (0x80 + n / 64 % 64) % 64)
      2 1 0x80 0xBF (0x80 + n % 64) (by omega) ⟨by omega, by omega⟩
      (by omega)
    rw [show ((0xE0 + n / 4096) % 16 * 64 + (0x80 + n / 64 % 64) % 64) *
      64 + (0x80 + n % 64) % 64 = n from by omega] at e3
    simp only [decodeBytes_cons, decodeBytes_nil, e1, e2, e3,
      List.append_nil, List.nil_append]
  · rw [utf8EncodeChar, if_neg h1, if_neg h2, if_neg h3]
    have e1 : stepByte initDec (0xF0 + n / 262144) =
        (⟨(0xF0 + n / 262144) % 8, 3, 0,
          if 0xF0 + n / 262144 = 0xF0 then 0x90 else 0x80,
          if 0xF0 + n / 262144 = 0xF4 then 0x8F else 0xBF⟩, []) := by
      rw [stepByte_init]
      unfold startByte
      rw [if_neg (by omega : ¬ 0xF0 + n / 262144 ≤ 0x7F),
        if_neg (by omega :
          ¬ (0xC2 ≤ 0xF0 + n / 262144 ∧ 0xF0 + n / 262144 ≤ 0xDF)),
        if_neg (by omega :
          ¬ (0xE0 ≤ 0xF0 + n / 262144 ∧ 0xF0 + n / 262144 ≤ 0xEF)),
        if_pos (by omega :
          0xF0 ≤ 0xF0 + n / 262144 ∧ 0xF0 + n / 262144 ≤ 0xF4)]
    have e2 := step_cont ((0xF0 + n / 262144) % 8) 3 0
      (if 0xF0 + n / 262144 = 0xF0 then 0x90 else 0x80)
      (if 0xF0 + n / 262144 = 0xF4 then 0x8F else 0xBF)
      (0x80 + n / 4096 % 64) (by omega)
      ⟨by split <;> omega, by split <;> omega⟩ (by omega)
    have e3 := step_cont
      ((0xF0 + n / 262144) % 8 * 64 + (0x80 + n / 4096 % 64) % 64)
      3 1 0x80 0xBF (0x80 + n / 64 % 64) (by omega) ⟨by omega, by omega⟩
      (by omega)
    have e4 := step_fin
      (((0xF0 + n / 262144) % 8 * 64 + (0x80 + n / 4096 % 64) % 64) * 64 +
        (0x80 + n / 64 % 64) % 64)
      3 2 0x80 0xBF (0x80 + n % 64) (by omega) ⟨by omega, by omega⟩
      (by omega)
    rw [show (((0xF0 + n / 262144) % 8 * 64 + (0x80 + n / 4096 % 64) % 64) *
      64 + (0x80 + n / 64 % 64) % 64) * 64 + (0x80 + n % 64) % 64 = n
      from by omega] at e4
    simp only [decodeBytes_cons, decodeBytes_nil, e1, e2, e3, e4,
      List.append_nil, List.nil_append]

theorem decode_utf8Encode (s : List Char) :
    decodeBytes initDec (utf8Encode s) = (initDec, s.map Char.toNat) := by
  induction s with
  | nil => rfl
  | cons c cs ih =>
    show decodeBytes initDec (utf8EncodeChar c.toNat ++ utf8Encode cs) = _
    rw [decodeBytes_append, decode_encodeChar, ih]
    rfl

/-- Embedding of `dataViewToString` from src/utils/bleTransforms.ts: a
one-shot `new TextDecoder().decode(buffer)` over the view's bytes, i.e.
streaming decode from a fresh state followed by end-of-stream handling.
The output is the list of decoded code points. -/
def dataViewToString (bytes : List Nat) : List Nat :=
  (decodeBytes initDec bytes).2 ++ decFlush (decodeBytes initDec bytes).1

/-- Embedding of `stringToUint8Array` from src/utils/bleTransforms.ts:
`new TextEncoder().encode(str)`. -/
def stringToUint8Array (s : List Char) : List Nat := utf8Encode s

/-- Claim C10: for every string s, decoding the UTF-8 bytes produced for a
BLE write recovers s exactly: `dataViewToString` applied to the bytes of
`stringToUint8Array s` yields precisely the code points of s. -/
theorem C10_ble_text_roundtrip (s : List Char) :
    dataViewToString (stringToUint8Array s) = s.map Char.toNat := by
  unfold dataViewToString stringToUint8Array
  rw [decode_utf8Encode]
  simp [decFlush, initDec]

/-- The Euro sign U+20AC, a three-byte UTF-8 character, split after its
second byte: the failing input for the `startReading` decoder. -/
def euroFirstChunk : List Nat := [0xE2, 0x82]

/-- The remaining byte of the split Euro sign. -/
def euroSecondChunk : List Nat := [0xAC]

/-- Claim C3: the spec requires the byte-to-text decoding stage to be
streaming, but the read loop in App.vue (`startReading`) calls
`textDecoder.decode(value)` without `stream: true`, so a 3-byte UTF-8
character fed as 2 bytes then 1 byte comes out as two replacement
characters U+FFFD instead of the original character U+20AC; the
TextDecoderStream of serialTransforms.ts (which the read loop does not
use) decodes the very same split correctly. -/
theorem C3_startReading_decode_bug :
    startReadingDecode euroFirstChunk ++ startReadingDecode euroSecondChunk
      = [0xFFFD, 0xFFFD] ∧
    (TextDecoderStream.transform
        (TextDecoderStream.transform initDec euroFirstChunk).1
        euroSecondChunk).2 = [0x20AC] ∧
    (TextDecoderStream.transform initDec euroFirstChunk).2 = [] := by
  refine ⟨rfl, rfl, rfl⟩

theorem utf8EncodeChar_ne_nil (n : Nat) : utf8EncodeChar n ≠ [] := by
  unfold utf8EncodeChar
  split
  · simp
  split
  · simp
  split <;> simp

theorem getLast?_encodeChar (n : Nat) :
    (utf8EncodeChar n).getLast? = some 10 ↔ n = 10 := by
  unfold utf8EncodeChar
  split
  · simp
  split
  · simp only [List.getLast?_cons_cons, List.getLast?_singleton,
      Option.some.injEq]
    omega
  split
  · simp only [List.getLast?_cons_cons, List.getLast?_singleton,
      Option.some.injEq]
    omega
  · simp only [List.getLast?_cons_cons, List.getLast?_singleton,
      Option.some.injEq]
    omega

theorem getLast?_utf8Encode (s : List Char) :
    (utf8Encode s).getLast? = some 10 ↔
      (s.map Char.toNat).getLast? = some 10 := by
  induction s with
  | nil => simp [utf8Encode]
  | cons c cs ih =>
    have hshow : utf8Encode (c :: cs) = utf8EncodeChar c.toNat ++ utf8Encode cs :=
      rfl
    cases cs with
    | nil =>
      rw [hshow]
      show (utf8EncodeChar c.toNat ++ []).getLast? = some 10 ↔ _
      simp [getLast?_encodeChar]
    | cons d ds =>
      rw [hshow,
        List.getLast?_append_of_ne_nil _ (by
          show utf8EncodeChar d.toNat ++ utf8Encode ds ≠ []
          simp [utf8EncodeChar_ne_nil]), ih]
      simp

/-- The connection state of the byte-stream adapter
(src/composables/useSerial.ts): whether a reader handle, writer handle
and port object are currently held (the refs are non-null), the
`isConnected` flag, and the `error` ref. -/
structure SerialState where
  reader : Bool
  writer : Bool
  port : Bool
  isConnected : Bool
  error : Option String
deriving DecidableEq, Repr

/-- Fault injection for the release steps awaited inside `disconnect`:
for each await (`reader.cancel()`, `writer.close()`, `port.close()`),
`some msg` means the promise rejects with that message. -/
structure DisconnectFaults where
  cancelErr : Option String
  writerCloseErr : Option String
  portCloseErr : Option String
deriving DecidableEq, Repr

/-- The port-closing tail of `disconnect`: `if (port.value) { await
port.value.close(); port.value = null }` then `isConnected.value =
false`, still inside the one enclosing try/catch. -/
def discPort (f : DisconnectFaults) (s : SerialState) : SerialState :=
  if s.port then
    match f.portCloseErr with
    | some e => { s with error := some e }
    | none => { s with port := false, isConnected := false }
  else { s with isConnected := false }

/-- The writer-releasing step of `disconnect`: `if (writer.value) { await
writer.value.close(); writer.value = null }`, then the port step. -/
def discWriter (f : DisconnectFaults) (s : SerialState) : SerialState :=
  if s.writer then
    match f.writerCloseErr with
    | some e => { s with error := some e }
    | none => discPort f { s with writer := false }
  else discPort f s

/-- Embedding of `disconnect` from src/composables/useSerial.ts: one
try/catch around `error = null`, reader cancel, writer close, port close
and `isConnected = false`; the first rejected await jumps to the catch,
which records the message in `error` and skips every remaining
statement. -/
def disconnect (f : DisconnectFaults) (s : SerialState) : SerialState :=
  let s0 : SerialState := { s with error := none }
  if s0.reader then
    match f.cancelErr with
    | some e => { s0 with error := some e }
    | none => discWriter f { s0 with reader := false }
  else discWriter f s0

/-- The error message `write` records when `writer.value` is null. -/
def noActiveConnectionMsg : String := "No active connection"

/-- Embedding of `write` from src/composables/useSerial.ts, with a fault
parameter for the awaited `writer.write`: returns the new state and the
list of byte payloads handed to the writer (one per performed write). -/
def SerialWrite (fault : Option String) (s : SerialState)
    (data : List Char) : SerialState × List (List Nat) :=
  if s.writer = false then
    ({ s with error := some noActiveConnectionMsg }, [])
  else
    match fault with
    | some e => ({ s with error := some e }, [])
    | none => ({ s with error := none }, [utf8Encode data])

/-- A session with an open port and writer (no read loop active), as after
`connect` without `startReading`. -/
def openSession : SerialState := ⟨false, true, true, true, none⟩

/-- The injected failure message for releasing the writer. -/
def writerBoomMsg : String := "writer close failure"

/-- Faults making only `writer.close()` reject. -/
def writerBoomFaults : DisconnectFaults := ⟨none, some writerBoomMsg, none⟩

/-- Claim C4, counterexample: with an open session whose writer release
rejects, `disconnect` does NOT reach the closed state — the single
try/catch aborts at the writer step, so the port handle is still held,
the writer handle is still held, and `isConnected` is still true; the
claim that all three release steps are attempted and the session always
ends Closed is therefore false of the code. -/
theorem C4_disconnect_counterexample :
    (disconnect writerBoomFaults openSession).port = true ∧
    (disconnect writerBoomFaults openSession).writer = true ∧
    (disconnect writerBoomFaults openSession).isConnected = true ∧
    (disconnect writerBoomFaults openSession).error = some writerBoomMsg := by
  refine ⟨rfl, rfl, rfl, rfl⟩

/-- Claim C4 (amended): `disconnect` runs its release steps inside one
try/catch.  When every applicable step succeeds it clears reader, writer
and port and sets `isConnected` to false with no error.  When a step
fails, the steps before it have already cleared their handles, the
failing step's message is recorded as the error, and every remaining
statement — including the later release steps and `isConnected = false` —
is skipped, leaving the remaining handles and the connected flag
unchanged. -/
theorem C4_disconnect_amended (f : DisconnectFaults) (s : SerialState) :
    ((s.reader = true → f.cancelErr = none) →
      (s.writer = true → f.writerCloseErr = none) →
      (s.port = true → f.portCloseErr = none) →
      disconnect f s = ⟨false, false, false, false, none⟩) ∧
    (∀ e, s.reader = true → f.cancelErr = some e →
      disconnect f s = { s with error := some e }) ∧
    (∀ e, (s.reader = true → f.cancelErr = none) →
      s.writer = true → f.writerCloseErr = some e →
      disconnect f s = { s with reader := false, error := some e }) ∧
    (∀ e, (s.reader = true → f.cancelErr = none) →
      (s.writer = true → f.writerCloseErr = none) →
      s.port = true → f.portCloseErr = some e →
      disconnect f s =
        { s with reader := false, writer := false, error := some e }) := by
  obtain ⟨r, w, p, ic, err⟩ := s
  obtain ⟨fc, fw, fp⟩ := f
  cases r <;> cases w <;> cases p <;> cases fc <;> cases fw <;> cases fp <;>
    simp_all [disconnect, discWriter, discPort]

theorem C4_disconnect_amended_witness :
    disconnect ⟨none, none, none⟩ openSession =
      ⟨false, false, false, false, none⟩ ∧
    disconnect writerBoomFaults openSession =
      { openSession with reader := false, error := some writerBoomMsg } := by
  constructor
  · exact (C4_disconnect_amended ⟨none, none, none⟩ openSession).1
      (fun _ => rfl) (fun _ => rfl) (fun _ => rfl)
  · exact (C4_disconnect_amended writerBoomFaults openSession).2.2.1
      writerBoomMsg (by intro h; exact absurd h (by decide)) rfl rfl

/-- Claim C6: for every session state and every text, `write` with no
writer handle records the NotConnected-style error "No active connection"
in the error observable, performs no write and leaves every other field
unchanged; with a writer handle it clears the error and performs exactly
one write whose payload is exactly the UTF-8 encoding of the text, so the
payload ends with the delimiter byte 0x0A precisely when the text itself
ends with a newline — no delimiter is appended. -/
theorem C6_write_spec (s : SerialState) (data : List Char) :
    (s.writer = false →
      SerialWrite none s data =
        ({ s with error := some noActiveConnectionMsg }, [])) ∧
    (s.writer = true →
      SerialWrite none s data = ({ s with error := none }, [utf8Encode data]) ∧
      ((utf8Encode data).getLast? = some 10 ↔
        (data.map Char.toNat).getLast? = some 10)) := by
  constructor
  · intro hw
    rw [SerialWrite, if_pos hw]
  · intro hw
    refine ⟨?_, getLast?_utf8Encode data⟩
    rw [SerialWrite, if_neg (by simp [hw])]

theorem C6_write_spec_witness :
    SerialWrite none openSession ['O', 'K'] =
      ({ openSession with error := none }, [utf8Encode ['O', 'K']]) ∧
    SerialWrite none { openSession with writer := false } ['O', 'K'] =
      ({ openSession with
          writer := false
          error := some noActiveConnectionMsg }, []) := by
  constructor
  · exact ((C6_write_spec openSession ['O', 'K']).2 rfl).1
  · exact (C6_write_spec { openSession with writer := false }
      ['O', 'K']).1 rfl

/-- A remote GATT characteristic as the attribute adapter sees it: its
identifier, whether its properties include notify capability, and the
change listeners registered on it via `addEventListener` (identified by
callback ids). -/
structure Characteristic where
  uuid : Nat
  notify : Bool
  listeners : List Nat
deriving DecidableEq, Repr

/-- The state of the attribute (BLE) adapter
(src/composables/useBluetooth.ts): presence of the manager and device
objects, the `isConnected` flag, the `error` ref, the discovered service
identifiers, the selected service and the selected characteristic. -/
structure BleState where
  manager : Bool
  device : Bool
  isConnected : Bool
  error : Option String
  services : List Nat
  currentService : Option Nat
  currentCharacteristic : Option Characteristic
deriving DecidableEq, Repr

/-- Embedding of the disconnect listener that `connect` in
src/composables/useBluetooth.ts passes to `connectToServer`: when the
remote side disconnects it sets `isConnected = false`, `device = null`,
`services = []`, `currentService = null`, `currentCharacteristic = null`.
The second component lists the adapter or platform operations the
listener body invokes: none — in particular it never calls
`disconnect()`. -/
def gattDisconnectedListener (s : BleState) : BleState × List String :=
  ({ s with
      isConnected := false
      device := false
      services := []
      currentService := none
      currentCharacteristic := none }, [])

/-- The error message recorded when no service is selected. -/
def noServiceSelectedMsg : String := "No service selected"

/-- The error message recorded when no characteristic is selected. -/
def noCharacteristicSelectedMsg : String := "No characteristic selected"

/-- Error message of the platform rejection when `startNotifications` is
called on a characteristic without notify capability (modelling the Web
Bluetooth NotSupportedError). -/
def notSupportedMsg : String := "GATT Error: Not supported."

/-- Embedding of `selectCharacteristic` from
src/composables/useBluetooth.ts.  The outcome of the external
`manager.getCharacteristic` call is a parameter: `Except.ok c` when the
identifier resolves inside the selected service, `Except.error e` when
resolution rejects (for example NotFound for an identifier of a different
service).  The guard mirrors `if (!manager.value ||
!currentService.value)`. -/
def selectCharacteristic (res : Except String Characteristic)
    (s : BleState) : BleState :=
  if s.manager = false ∨ s.currentService = none then
    { s with error := some noServiceSelectedMsg }
  else
    match res with
    | Except.ok c => { s with error := none, currentCharacteristic := some c }
    | Except.error e => { s with error := some e }

/-- Embedding of `startNotifications` from
src/composables/useBluetooth.ts: guard on a selected characteristic, then
`await currentCharacteristic.value.startNotifications()` — which the
platform rejects when the characteristic lacks notify capability — and
only after that await succeeds, `addEventListener(
'characteristicvaluechanged', callback)`. -/
def startNotifications (cb : Nat) (s : BleState) : BleState :=
  match s.currentCharacteristic with
  | none => { s with error := some noCharacteristicSelectedMsg }
  | some c =>
    if c.notify then
      { s with
          error := none
          currentCharacteristic :=
            some { c with listeners := c.listeners ++ [cb] } }
    else { s with error := some notSupportedMsg }

/-- The callbacks invoked when a value-change event fires on a
characteristic: exactly its registered listeners. -/
def fireValueChange (c : Characteristic) : List Nat := c.listeners

/-- Claim C5: the disconnect listener registered by the attribute
adapter's `connect`, when invoked by a remote-initiated disconnection,
empties the discovered services list, nulls the selected service and the
selected characteristic, clears the Connected flag — and performs no call
to `disconnect()` (or any other adapter operation). -/
theorem C5_disconnect_listener_resets (s : BleState) :
    (gattDisconnectedListener s).1.services = [] ∧
    (gattDisconnectedListener s).1.currentService = none ∧
    (gattDisconnectedListener s).1.currentCharacteristic = none ∧
    (gattDisconnectedListener s).1.isConnected = false ∧
    (gattDisconnectedListener s).2 = [] := by
  refine ⟨rfl, rfl, rfl, rfl, rfl⟩

/-- Claim C7: `selectCharacteristic` never touches the selected service,
and when resolution fails the error is recorded (the rejection message,
when the adapter guard passes) while both the previously selected service
and the previously selected characteristic stay exactly as they were —
the failure is independently recoverable. -/
theorem C7_selectCharacteristic_failure (s : BleState)
    (res : Except String Characteristic) (sv : Nat) (e : String)
    (hsv : s.currentService = some sv) :
    (selectCharacteristic res s).currentService = some sv ∧
    (res = Except.error e →
      (selectCharacteristic res s).currentCharacteristic =
        s.currentCharacteristic ∧
      (s.manager = true → (selectCharacteristic res s).error = some e)) := by
  unfold selectCharacteristic
  by_cases hm : s.manager = false ∨ s.currentService = none
  · rw [if_pos hm]
    refine ⟨hsv, fun _ => ⟨rfl, fun hman => ?_⟩⟩
    rcases hm with hm | hm
    · rw [hman] at hm
      exact absurd hm (by decide)
    · rw [hsv] at hm
      exact absurd hm (by simp)
  · rw [if_neg hm]
    cases res with
    | ok c => exact ⟨hsv, fun hco => by cases hco⟩
    | error e2 =>
      refine ⟨hsv, fun hco => ?_⟩
      cases hco
      exact ⟨rfl, fun _ => rfl⟩

/-- A characteristic without notify capability and with no listeners. -/
def plainChar : Characteristic := ⟨7, false, []⟩

/-- An adapter state with a connected device, a selected service and the
notify-less characteristic selected. -/
def bleReadyState : BleState :=
  ⟨true, true, true, none, [1, 2], some 1, some plainChar⟩

theorem C7_selectCharacteristic_failure_witness :
    (selectCharacteristic (Except.error noServiceSelectedMsg)
      bleReadyState).currentService = some 1 ∧
    (selectCharacteristic (Except.error noServiceSelectedMsg)
      bleReadyState).currentCharacteristic = some plainChar := by
  have h := C7_selectCharacteristic_failure bleReadyState
    (Except.error noServiceSelectedMsg) 1 noServiceSelectedMsg rfl
  exact ⟨h.1, (h.2 rfl).1⟩

/-- Claim C8: calling `startNotifications` while the selected
characteristic lacks notify capability records the platform's
Unsupported error and registers no change listener — the characteristic
keeps exactly its previous listeners, so a later value change fires no
new callback; when the characteristic does support notify, the stream
starts, the error clears and exactly one listener (the given callback) is
appended. -/
theorem C8_startNotifications_spec (s : BleState) (c : Characteristic)
    (cb : Nat) (hc : s.currentCharacteristic = some c) :
    (c.notify = false →
      (startNotifications cb s).error = some notSupportedMsg ∧
      (startNotifications cb s).currentCharacteristic = some c ∧
      (cb ∉ c.listeners → cb ∉ fireValueChange c)) ∧
    (c.notify = true →
      (startNotifications cb s).error = none ∧
      (startNotifications cb s).currentCharacteristic =
        some { c with listeners := c.listeners ++ [cb] }) := by
  constructor
  · intro hn
    simp only [startNotifications, hc]
    rw [if_neg (by simp [hn])]
    exact ⟨rfl, rfl, fun h => h⟩
  · intro hn
    simp only [startNotifications, hc]
    rw [if_pos hn]
    exact ⟨rfl, rfl⟩

theorem C8_startNotifications_spec_witness :
    (startNotifications 5 bleReadyState).error = some notSupportedMsg ∧
    (startNotifications 5 bleReadyState).currentCharacteristic =
      some plainChar ∧
    5 ∉ fireValueChange plainChar := by
  have h := (C8_startNotifications_spec bleReadyState plainChar 5 rfl).1 rfl
  exact ⟨h.1, h.2.1, h.2.2 (by decide)⟩
